import Mathlib

/-!
Shallow embedding of the co-share message-dispatch / RPC protocol layer and of
the two example stores of the repository:

* `src/unnamed/part_000` (the `StoreLink` module): `StoreLinkId`,
  `StoreLinkMessage`, `RootStoreDefaultLinkId`, the `StoreLink` interface;
* `src/examples/stores/request.ts`: `RequestStore` with its `subscriber` and
  the `add` request handler;
* `src/unnamed/part_001` (`examples/stores/consistent.ts`): `ConsistentStore`
  with its `subscriber` and the `changeTime` / `informTime` / `invert` action
  handlers, `getCurrentValue`, `applySmoothing`, `limitAbs`.

JavaScript numbers are modelled as exact rationals.  Handlers are modelled as
pure functions from the store's mutable fields (and the values drawn by
`Math.random()` / read from the clock, passed explicitly) to the updated
fields together with the list of outbound `publishTo` calls they perform.
The co-share base classes (`Store`, `Action`, `Request`, `Subscriber`) and
the co-consistent library are not part of the provided sources; where a claim
needs them they are modelled from the spec, marked `Modelled from the spec:`
in the corresponding doc comment.
-/

namespace CoShare

/-- A JavaScript number, modelled as an exact rational. -/
abbrev JSNumber := ℚ

/-- Transport-serializable message parameters (the `any` values a wire message
carries; the examples only ever send numbers and booleans). -/
inductive JsonValue where
  | num (q : JSNumber)
  | str (s : String)
  | bool (b : Bool)
  | null
deriving DecidableEq

/-- From src/unnamed/part_000: `export type StoreLinkId = string | number`. -/
abbrev StoreLinkId := String ⊕ JSNumber

/-- Modelled from the spec: an `ActionIdentifier` is an "opaque,
process-unique, string- or number-valued name"; its defining module
`./action` is imported by src/unnamed/part_000 but is not among the provided
sources. -/
abbrev ActionIdentifier := String ⊕ JSNumber

/-- From src/unnamed/part_000:
`export type StoreLinkMessage = [actionIdentifier: ActionIdentifier, ...params: Array<any>]`
— an ordered tuple whose first component is the action identifier and whose
remaining components are the positional parameters. -/
abbrev StoreLinkMessage := ActionIdentifier × List JsonValue

/-- The JavaScript constant `Number.MIN_SAFE_INTEGER`, that is `-(2^53 - 1)`. -/
def minSafeInteger : JSNumber := -(2 ^ 53 - 1)

/-- From src/unnamed/part_000:
`export const RootStoreDefaultLinkId = Number.MIN_SAFE_INTEGER`. -/
def RootStoreDefaultLinkId : StoreLinkId := Sum.inr minSafeInteger

/-- A peer link, identified by its `StoreLinkId` (src/unnamed/part_000: the
`StoreLink` interface; the `connection` and `store` back-references are
irrelevant to the claims and omitted from the embedding). -/
structure StoreLink where
  id : StoreLinkId
deriving DecidableEq

/-- From src/unnamed/part_000: `publish(...message: StoreLinkMessage): void`,
modelled by its observable effect: the message is appended to the link's
outbound queue (the spec: publishes "are serialized per-link in call order").
Its argument type is exactly `StoreLinkMessage`. -/
def StoreLink.publish (_l : StoreLink) (m : StoreLinkMessage)
    (outbox : List StoreLinkMessage) : List StoreLinkMessage :=
  outbox ++ [m]

/-- One element of a wire tuple as the spec describes it: the identifier or
one of the positional parameters. -/
inductive WireElem where
  | ident (a : ActionIdentifier)
  | param (v : JsonValue)
deriving DecidableEq

/-- Whether a wire element is a parameter. -/
def WireElem.isParam : WireElem → Bool
  | .param _ => true
  | .ident _ => false

/-- Modelled from the spec: the wire message format "ordered tuple
`[identifier, ...params]`" — a tuple whose first element is an identifier and
whose remaining elements are all parameters. -/
def isWireTuple : List WireElem → Bool
  | .ident _ :: rest => rest.all WireElem.isParam
  | _ => false

/-- The wire tuple a `StoreLinkMessage` stands for: its identifier followed by
its positional parameters. -/
def encodeMessage (m : StoreLinkMessage) : List WireElem :=
  .ident m.1 :: m.2.map .param

/-- Read back the parameter list of a wire tuple's tail. -/
def decodeParams : List WireElem → Option (List JsonValue)
  | [] => some []
  | .param v :: rest => (decodeParams rest).map (fun ps => v :: ps)
  | .ident _ :: _ => none

/-- Read back a `StoreLinkMessage` from a wire tuple. -/
def decodeMessage : List WireElem → Option StoreLinkMessage
  | .ident a :: rest => (decodeParams rest).map (fun ps => (a, ps))
  | _ => none

/-- Addressing target (src/unnamed/part_000's consumers and the spec):
`{to:"one", one} | {to:"all"} | {to:"all-except-one", except}`. -/
inductive AddressTarget where
  | one (link : StoreLink)
  | all
  | allExceptOne (except : StoreLink)
deriving DecidableEq

/-- What a call site actually passes as the first argument of `publishTo`:
`Action.publishTo` takes a tagged `AddressTarget`, while `Request.publishTo`
takes the destination `StoreLink` itself, untagged
(src/examples/stores/request.ts line 15 passes `this.mainLink`). -/
inductive PassedTarget where
  | tagged (t : AddressTarget)
  | bare (link : StoreLink)
deriving DecidableEq

/-- Whether a passed target is one of the three tagged variants. -/
def PassedTarget.isTagged : PassedTarget → Bool
  | .tagged _ => true
  | .bare _ => false

/-- Modelled from the spec (section 4.4): resolution of a tagged addressing
target against the store's current link set; a link no longer in the set is
"silently skipped if addressed individually, or simply excluded from
all / all-except-one fan-out". -/
def AddressTarget.deliversTo (t : AddressTarget) (l : StoreLink)
    (linkSet : List StoreLink) : Bool :=
  match t with
  | .one o => decide (l = o) && decide (l ∈ linkSet)
  | .all => decide (l ∈ linkSet)
  | .allExceptOne e => decide (l ∈ linkSet) && decide (l ≠ e)

/-- Delivery for what a call site passes: a tagged target is resolved against
the link set; a bare link (`Request.publishTo`) sends over exactly that
link. -/
def PassedTarget.deliversTo : PassedTarget → StoreLink → List StoreLink → Bool
  | .tagged t, l, linkSet => t.deliversTo l linkSet
  | .bare o, l, _ => decide (l = o)

/-- Terminal outcome of an asynchronous sequence: normal completion or
failure. -/
inductive Terminal where
  | complete
  | error (msg : String)
deriving DecidableEq

/-- Modelled from the spec (section 9): the rxjs Observable returned by a
Request handler, as a "cancellable async sequence abstraction with ...
three terminal outcomes": a list of emissions followed by an optional
terminal event (`none` = never terminates, e.g. rxjs `NEVER`). -/
structure Producer (α : Type) where
  emits : List α
  terminal : Option Terminal
deriving DecidableEq

/-- The rxjs `of(v)`: one emission, then completion. -/
def Producer.of (v : α) : Producer α := ⟨[v], some .complete⟩

/-- The rxjs `NEVER`: no emissions, no terminal event. -/
def Producer.never : Producer α := ⟨[], none⟩

/-- Result-transport messages the request dispatch layer sends back to the
originating link: one per emission, then a completion or error marker. -/
inductive ResultMsg where
  | result (v : JsonValue)
  | completionMarker
  | errorMarker (msg : String)
deriving DecidableEq

/-- Modelled from the spec (section 4.2): remote invocation of a Request.
When an inbound request message arrives on link `l`, the dispatch layer
invokes the handler with `origin = l`, subscribes to the returned producer,
and "for each emission publishes a result message back to L alone
(`{to:"one", one: L}`); on completion publishes a completion marker; on
failure publishes an error marker". -/
def remoteRequestDispatch (handler : Option StoreLink → List JsonValue → Producer JsonValue)
    (l : StoreLink) (params : List JsonValue) : List (AddressTarget × ResultMsg) :=
  let p := handler (some l) params
  p.emits.map (fun v => (.one l, .result v)) ++
    match p.terminal with
    | some .complete => [(.one l, .completionMarker)]
    | some (.error e) => [(.one l, .errorMarker e)]
    | none => []

/-- The Request handler `add(origin, a, b) => of(a + b)` posited by the spec's
testable property (section 8).  The wildcard row covers parameter lists that
do not match the declared arity and types; the dispatched message of the
claim never produces it. -/
def specAddHandler : Option StoreLink → List JsonValue → Producer JsonValue
  | _, [.num a, .num b] => Producer.of (.num (a + b))
  | _, _ => Producer.never

/-- Modelled from the spec (section 2 data flow): dispatch of an inbound wire
message on a store whose single registered Request is `"add"` with handler
`specAddHandler`; the identifier is resolved from the message's first tuple
element, an unknown identifier is dropped (`none`; spec section 7,
`UnknownOperation`). -/
def dispatchSpecAdd (l : StoreLink) (msg : StoreLinkMessage) :
    Option (List (AddressTarget × ResultMsg)) :=
  if msg.1 = Sum.inl "add" then some (remoteRequestDispatch specAddHandler l msg.2)
  else none

/-- Result of the `RequestStore.add` handler: either the value of
`this.add.publishTo(this.mainLink, v1, v2)` (the request delegated over a
link) or a locally returned rxjs producer. -/
inductive AddResult where
  | delegated (link : StoreLink) (v1 v2 : JSNumber)
  | producer (p : Producer JSNumber)
deriving DecidableEq

/-- The `RequestStore.add` handler (src/examples/stores/request.ts lines
13-18): on a local call (`origin == null`) it returns
`this.add.publishTo(this.mainLink, v1, v2)`; on a remote call it returns
`Math.random() > 0.5 ? NEVER : of(v1 + v2)`.  `mainLink` is the store's main
link and `rand` the value `Math.random()` draws.  The second component
records the outbound `publishTo` calls the handler makes
(`Request.publishTo` passes the destination link itself, untagged, and sends
the request message over it). -/
def addCall (mainLink : StoreLink) (origin : Option StoreLink) (v1 v2 : JSNumber)
    (rand : JSNumber) : AddResult × List (PassedTarget × StoreLinkMessage) :=
  match origin with
  | none =>
    (.delegated mainLink v1 v2, [(.bare mainLink, (Sum.inl "add", [.num v1, .num v2]))])
  | some _ =>
    (.producer (if rand > 0.5 then .never else .of (v1 + v2)), [])

/-- A call a Subscriber handler makes on its admission callbacks. -/
inductive SubscriberCall where
  | accept (payload : List JsonValue)
  | deny (reason : String)
deriving DecidableEq

/-- Whether a subscriber-handler call is an `accept`. -/
def SubscriberCall.isAccept : SubscriberCall → Bool
  | .accept _ => true
  | .deny _ => false

/-- Whether a subscriber-handler call is a `deny`. -/
def SubscriberCall.isDeny : SubscriberCall → Bool
  | .accept _ => false
  | .deny _ => true

/-- Modelled from the spec (section 4.3): the per-attempt admission state
machine `Pending → {Accepted, Denied}`, "terminal either way; no
re-entry". -/
inductive AttemptState where
  | pending
  | accepted
  | denied
deriving DecidableEq

/-- Modelled from the spec (section 4.3): one accept/deny call transitions the
attempt out of `pending`; the terminal states absorb further calls. -/
def stepAttempt : AttemptState → SubscriberCall → AttemptState
  | .pending, .accept _ => .accepted
  | .pending, .deny _ => .denied
  | s, _ => s

/-- The attempt state a run of a subscriber handler ends in. -/
def runAttempt (calls : List SubscriberCall) : AttemptState :=
  calls.foldl stepAttempt .pending

/-- The `RequestStore.subscriber` handler
`(connection, accept, deny) => accept()` (src/examples/stores/request.ts
lines 9-11): the admission calls it makes, in order. -/
def requestSubscriberCalls : List SubscriberCall := [.accept []]

/-- From src/unnamed/part_001: `const velocity = 0.0001`. -/
def velocity : JSNumber := 0.0001

/-- The `type` field of a co-consistent action in src/unnamed/part_001:
`"init" | "invert"`. -/
inductive ActionType where
  | init
  | invert
deriving DecidableEq

/-- From src/unnamed/part_001: `type StateAction = { type, id }`. -/
structure StateAction where
  type : ActionType
  id : JSNumber
deriving DecidableEq

/-- From src/unnamed/part_001: `type SmoothState = { value, velocity }`. -/
structure SmoothState where
  value : JSNumber
  velocity : JSNumber
deriving DecidableEq

/-- From src/unnamed/part_001: the fields of `class ContinousState`. -/
structure ContinousState where
  value : JSNumber
  directionInverted : Bool
deriving DecidableEq

/-- An entry of the co-consistent `Universe` history: what one
`universe.insert` call is given — the action, its insertion times and, for
the constructor's `"init"` insert, an explicit base state.  Modelled from the
spec: co-consistent is "an opaque external state-computation collaborator";
the embedding records exactly what `insert` receives. -/
structure UniverseEntry where
  action : StateAction
  currentTime : JSNumber
  stateTime : JSNumber
  base : Option ContinousState
deriving DecidableEq

/-- The mutable fields of a `ConsistentStore` (src/unnamed/part_001):
`onServer`, the clock (represented by the value `clock.getCurrentTime()`
returns now), the `smoothedRef` pair, and the universe history (the recorded
`insert` calls).  The `realStateRef` scratch buffer is always overwritten by
`universe.applyStateAt` before it is read, so it is represented by that
collaborator's return value (`ApplyStateAt` below) rather than stored. -/
structure ConsistentState where
  onServer : Bool
  clockTime : JSNumber
  smoothedState : Option SmoothState
  smoothedTime : Option JSNumber
  history : List UniverseEntry
deriving DecidableEq

/-- Modelled from the spec: `universe.applyStateAt(realStateRef, entry, time)`
of co-consistent, the "opaque external state-computation collaborator",
abstracted as an arbitrary function of the history and the query time; the
theorems below hold for every such function. -/
abbrev ApplyStateAt := List UniverseEntry → JSNumber → ContinousState

/-- The `ConsistentStore.subscriber` handler (src/unnamed/part_001 lines
5-13): it reads the clock, applies the universe state at that time and calls
`accept(time, value, directionInverted)`; the admission calls it makes, in
order. -/
def consistentSubscriberCalls (applyStateAt : ApplyStateAt) (σ : ConsistentState) :
    List SubscriberCall :=
  let time := σ.clockTime
  let real := applyStateAt σ.history time
  [.accept [.num time, .num real.value, .bool real.directionInverted]]

/-- Effects of the non-throwing path of `changeTime`: `clock.change(by, 0.5)`
and the scheduled `clock.wait(Math.max(500, by * 2)).then(() => informTime())`. -/
structure ChangeTimeEffects where
  changeBy : JSNumber
  changeSmoothing : JSNumber
  waitBeforeInformTime : JSNumber
deriving DecidableEq

/-- The `ConsistentStore.changeTime` handler (src/unnamed/part_001 lines
47-53): it throws `"should not warp time on the server"` when `onServer`,
and otherwise warps the clock and schedules an `informTime`.  The handler
ignores `origin`. -/
def changeTimeHandler (σ : ConsistentState) (_origin : Option StoreLink)
    (byArg : JSNumber) : Except String ChangeTimeEffects :=
  if σ.onServer then .error "should not warp time on the server"
  else .ok ⟨byArg, 0.5, max 500 (byArg * 2)⟩

/-- Modelled from the spec (section 4.1): "Calling it directly with
application arguments runs the handler with `origin = undefined` (local
invocation)", and a handler "raising a failure is NOT caught by the protocol
layer — it signals `HandlerFailure` to the caller", so the local caller sees
exactly the handler's outcome. -/
def invokeLocal (handler : Option StoreLink → α → β) (arg : α) : β :=
  handler none arg

/-- The `ConsistentStore.informTime` handler (src/unnamed/part_001 lines
55-61): the outbound `publishTo` calls it performs.  Locally it sends an
`informTime` message to the main link; remotely, on the server and with a
`currentTime` argument, it sends a `changeTime` message back to the origin. -/
def informTimeCall (σ : ConsistentState) (mainLink : StoreLink)
    (origin : Option StoreLink) (currentTimeArg : Option JSNumber) :
    List (PassedTarget × StoreLinkMessage) :=
  match origin with
  | none => [(.tagged (.one mainLink), (Sum.inl "informTime", [.num σ.clockTime]))]
  | some l =>
    match currentTimeArg with
    | some c =>
      if σ.onServer then
        [(.tagged (.one l), (Sum.inl "changeTime", [.num (σ.clockTime - c)]))]
      else []
    | none => []

/-- Common tail of the `invert` handler (src/unnamed/part_001 lines 83-97):
the `smoothedRef` update (when both its fields are set), the
`universe.insert` of the `"invert"` action, and the `publishTo` call of the
`invert` message `(stateTime, id)` at the given target. -/
def invertFinish (σ : ConsistentState) (currentTime stateTime id : JSNumber)
    (target : PassedTarget) : ConsistentState × List (PassedTarget × StoreLinkMessage) :=
  let σ₁ :=
    match σ.smoothedState, σ.smoothedTime with
    | some s, some t =>
      let deltaTime := currentTime - t
      { σ with
        smoothedState := some ⟨s.value + s.velocity * deltaTime, -s.velocity⟩
        smoothedTime := some currentTime }
    | _, _ => σ
  let σ₂ := { σ₁ with history := σ₁.history ++ [⟨⟨.invert, id⟩, currentTime, stateTime, none⟩] }
  (σ₂, [(target, (Sum.inl "invert", [.num stateTime, .num id]))])

/-- The `ConsistentStore.invert` handler (src/unnamed/part_001 lines 63-98).
`randId` is the value `Math.random()` draws on the local path.  On the remote
path with a future `stateTime`, `await clock.wait(jumpBy)` (server) suspends
until the clock has advanced by `jumpBy` and `clock.jump(jumpBy)` (client)
advances it immediately; both leave `clock.getCurrentTime()` at `stateTime`,
so both are modelled by setting the clock to `stateTime`.  Returns the
updated store fields and the outbound `publishTo` calls. -/
def invert (σ : ConsistentState) (origin : Option StoreLink)
    (stateTimeArg idArg : Option JSNumber) (randId : JSNumber) :
    ConsistentState × List (PassedTarget × StoreLinkMessage) :=
  let currentTime := σ.clockTime
  match origin with
  | none =>
    invertFinish σ currentTime currentTime randId (.tagged .all)
  | some l =>
    match stateTimeArg, idArg with
    | some stateTime, some id =>
      let σ₁ := if stateTime > currentTime then { σ with clockTime := stateTime } else σ
      invertFinish σ₁ σ₁.clockTime stateTime id (.tagged (.allExceptOne l))
    | _, _ => (σ, [])

/-- A JavaScript IEEE-754 number as the smoothing path of `getCurrentValue`
needs it: an exact rational payload, or one of the special values `NaN`,
`+Infinity`, `-Infinity`.  Rounding of finite results is not modelled; the
production and propagation of the special values (in particular `0/0 = NaN`
in `applySmoothing`) is.  Finite zero is the unsigned rational `0`. -/
inductive JSFloat where
  | num (q : ℚ)
  | nan
  | posInf
  | negInf
deriving DecidableEq

/-- JavaScript unary minus on numbers. -/
def JSFloat.neg : JSFloat → JSFloat
  | .num q => .num (-q)
  | .nan => .nan
  | .posInf => .negInf
  | .negInf => .posInf

/-- JavaScript addition: NaN propagates, opposite infinities give NaN, an
infinity absorbs finite addends. -/
def JSFloat.add : JSFloat → JSFloat → JSFloat
  | .num a, .num b => .num (a + b)
  | .nan, _ | _, .nan => .nan
  | .posInf, .negInf | .negInf, .posInf => .nan
  | .posInf, _ | _, .posInf => .posInf
  | .negInf, _ | _, .negInf => .negInf

/-- JavaScript subtraction, as addition of the negation. -/
def JSFloat.sub (a b : JSFloat) : JSFloat := a.add b.neg

/-- JavaScript multiplication: NaN propagates, infinity times zero is NaN,
infinity times a nonzero finite value is a signed infinity. -/
def JSFloat.mul : JSFloat → JSFloat → JSFloat
  | .num a, .num b => .num (a * b)
  | .nan, _ | _, .nan => .nan
  | .posInf, .posInf | .negInf, .negInf => .posInf
  | .posInf, .negInf | .negInf, .posInf => .negInf
  | .posInf, .num b | .num b, .posInf =>
    if b = 0 then .nan else if b > 0 then .posInf else .negInf
  | .negInf, .num b | .num b, .negInf =>
    if b = 0 then .nan else if b > 0 then .negInf else .posInf

/-- JavaScript division: NaN propagates, `0/0` and `Infinity/Infinity` are
NaN, a nonzero finite value over zero is a signed infinity (the divisor zero
taken as `+0`, the only zero of the embedding), a finite value over an
infinity is zero. -/
def JSFloat.div : JSFloat → JSFloat → JSFloat
  | .nan, _ | _, .nan => .nan
  | .num a, .num b =>
    if b = 0 then (if a = 0 then .nan else if a > 0 then .posInf else .negInf)
    else .num (a / b)
  | .num _, .posInf | .num _, .negInf => .num 0
  | .posInf, .posInf | .posInf, .negInf | .negInf, .posInf | .negInf, .negInf => .nan
  | .posInf, .num b => if b ≥ 0 then .posInf else .negInf
  | .negInf, .num b => if b ≥ 0 then .negInf else .posInf

/-- JavaScript `Math.min`: NaN if either argument is NaN. -/
def JSFloat.min : JSFloat → JSFloat → JSFloat
  | .nan, _ | _, .nan => .nan
  | .negInf, _ | _, .negInf => .negInf
  | .posInf, b => b
  | a, .posInf => a
  | .num a, .num b => .num (Min.min a b)

/-- JavaScript `Math.max`: NaN if either argument is NaN. -/
def JSFloat.max : JSFloat → JSFloat → JSFloat
  | .nan, _ | _, .nan => .nan
  | .posInf, _ | _, .posInf => .posInf
  | .negInf, b => b
  | a, .negInf => a
  | .num a, .num b => .num (Max.max a b)

/-- JavaScript `Math.abs`. -/
def JSFloat.abs : JSFloat → JSFloat
  | .num q => .num |q|
  | .nan => .nan
  | .posInf | .negInf => .posInf

/-- JavaScript `Math.floor`: NaN and the infinities are fixed points. -/
def JSFloat.floor : JSFloat → JSFloat
  | .num q => .num ⌊q⌋
  | v => v

/-- The JavaScript remainder operator `a % b`: NaN when either operand is
NaN, the dividend infinite or the divisor zero; the dividend when the
divisor is infinite; otherwise the truncated remainder
`a - b * trunc(a / b)`, which has the dividend's sign. -/
def JSFloat.mod : JSFloat → JSFloat → JSFloat
  | .nan, _ | _, .nan => .nan
  | .posInf, _ | .negInf, _ => .nan
  | .num a, .posInf | .num a, .negInf => .num a
  | .num a, .num b =>
    if b = 0 then .nan
    else .num (a - b * (if a / b ≥ 0 then ⌊a / b⌋ else ⌈a / b⌉))

/-- The JavaScript strict equality `===` on numbers: false when either side
is NaN, value equality otherwise. -/
def JSFloat.strictEq : JSFloat → JSFloat → Bool
  | .nan, _ | _, .nan => false
  | .num a, .num b => decide (a = b)
  | .posInf, .posInf | .negInf, .negInf => true
  | _, _ => false

/-- Whether a JS float is a real number lying in the closed interval
`[0, 1]` (NaN and the infinities are not). -/
def JSFloat.inUnitInterval : JSFloat → Bool
  | .num q => decide (0 ≤ q ∧ q ≤ 1)
  | _ => false

/-- A smoothing reference state over JS floats: the stored `SmoothState` is
exact, but the values one `getCurrentValue` call computes may be NaN. -/
structure SmoothStateF where
  value : JSFloat
  velocity : JSFloat
deriving DecidableEq

/-- Lift of a stored exact smoothing state into JS floats. -/
def SmoothState.toF (s : SmoothState) : SmoothStateF := ⟨.num s.value, .num s.velocity⟩

/-- From src/unnamed/part_001 lines 185-187:
`Math.max(-limit, Math.min(limit, value))`, over JS floats. -/
def limitAbs (value limit : JSFloat) : JSFloat := limit.neg.max (limit.min value)

/-- The `applySmoothing` function (src/unnamed/part_001 lines 168-183), over
JS floats: at `deltaTime = 0` the inner division is `±Infinity`, or NaN when
the real and smoothed values also coincide (`0/0`), and NaN then propagates
through `limitAbs` into both returned fields. -/
def applySmoothing (smoothState : SmoothStateF) (smoothStateTime : JSFloat)
    (realState : ContinousState) (realStateTime : JSFloat) : SmoothStateF :=
  let deltaTime := realStateTime.sub smoothStateTime
  let velocityReal : JSFloat :=
    if realState.directionInverted then .num (-velocity) else .num velocity
  let valueReal : JSFloat := .num realState.value
  let valueSmoothed := smoothState.value
  let vd := (velocityReal.add (((JSFloat.num 0.05).mul
    (valueReal.sub valueSmoothed)).div deltaTime)).div (.num 1.05)
  let newVelocity := smoothState.velocity.add
    (limitAbs (vd.sub smoothState.velocity) (((JSFloat.num velocity).mul deltaTime).mul (.num 0.1)))
  ⟨smoothState.value.add (newVelocity.mul deltaTime), newVelocity⟩

/-- Fractional part `a - Math.floor(a)` of a rational: the value JavaScript's
`a % 1` takes on a nonnegative real operand; used to state what
`getCurrentValue` returns on the non-NaN paths. -/
def mod1 (a : JSNumber) : JSNumber := a - ⌊a⌋

/-- The last three lines of `getCurrentValue` (src/unnamed/part_001 lines
116-118), over JS floats: `abs = Math.abs(value)`,
`backwards = Math.floor(abs) % 2 === 1`,
`return backwards ? 1 - (abs % 1) : abs % 1`. -/
def clampValue (value : JSFloat) : JSFloat :=
  let abs := value.abs
  let backwards := (abs.floor.mod (.num 2)).strictEq (.num 1)
  if backwards then (JSFloat.num 1).sub (abs.mod (.num 1)) else abs.mod (.num 1)

/-- The value-selection part of `getCurrentValue` (src/unnamed/part_001 lines
101-114): apply the universe state at the clock's time, then either seed the
smoothing reference (first call) and use the real value, or run
`applySmoothing` and use the smoothed or real value as requested.  Returns
the pre-clamp `value` and the updated `smoothedRef.state`, over JS floats. -/
def displayValue (applyStateAt : ApplyStateAt) (σ : ConsistentState) (smoothed : Bool) :
    JSFloat × SmoothStateF :=
  let realStateTime := σ.clockTime
  let real := applyStateAt σ.history realStateTime
  match σ.smoothedState, σ.smoothedTime with
  | some s, some t =>
    let s₁ := applySmoothing s.toF (.num t) real (.num realStateTime)
    (if smoothed then s₁.value else .num real.value, s₁)
  | _, _ =>
    (.num real.value,
     ⟨.num real.value, .num (if real.directionInverted then -velocity else velocity)⟩)

/-- The `ConsistentStore.getCurrentValue` method (src/unnamed/part_001 lines
100-119): select the value, stamp `smoothedRef.time` with the clock reading,
and clamp into the bouncing interval.  Returns the displayed value and the
updated smoothing reference (`smoothedRef.state` over JS floats,
`smoothedRef.time`). -/
def getCurrentValue (applyStateAt : ApplyStateAt) (σ : ConsistentState) (smoothed : Bool) :
    JSFloat × SmoothStateF × JSNumber :=
  let res := displayValue applyStateAt σ smoothed
  (clampValue res.1, res.2, σ.clockTime)

/-! ## Theorems -/

/-- Helper: encoding a message yields a well-formed wire tuple. -/
theorem encodeMessage_isWireTuple (m : StoreLinkMessage) :
    isWireTuple (encodeMessage m) = true := by
  show isWireTuple (.ident m.1 :: m.2.map .param) = true
  simp [isWireTuple, List.all_eq_true, WireElem.isParam]

/-- Helper: decoding is a left inverse of encoding on the parameter tail. -/
theorem decodeParams_map_param (ps : List JsonValue) :
    decodeParams (ps.map .param) = some ps := by
  induction ps with
  | nil => rfl
  | cons v ps ih => simp [decodeParams, ih]

/-- Helper: every well-formed wire tuple is the encoding of a message. -/
theorem isWireTuple_exists_encode (l : List WireElem) (h : isWireTuple l = true) :
    ∃ m : StoreLinkMessage, encodeMessage m = l := by
  match l with
  | [] => simp [isWireTuple] at h
  | .param _ :: _ => simp [isWireTuple] at h
  | .ident a :: rest =>
    have hall : rest.all WireElem.isParam = true := h
    have : ∃ ps : List JsonValue, ps.map WireElem.param = rest := by
      clear h
      induction rest with
      | nil => exact ⟨[], rfl⟩
      | cons e rest ih =>
        rw [List.all_cons, Bool.and_eq_true] at hall
        obtain ⟨ps, hps⟩ := ih hall.2
        cases e with
        | param v => exact ⟨v :: ps, by simp [hps]⟩
        | ident b => simp [WireElem.isParam] at hall
    obtain ⟨ps, hps⟩ := this
    exact ⟨(a, ps), by simp [encodeMessage, hps]⟩

/-- C8: every message exchanged over a StoreLink is an ordered tuple whose
first element is the ActionIdentifier and whose remaining elements are the
positional parameters: `StoreLinkMessage` corresponds exactly to the
well-formed wire tuples (encode/decode are mutually inverse and encoding is
onto the wire tuples), and `StoreLink.publish` accepts exactly such tuples,
appending them to the link's outbound queue in call order. -/
theorem storeLinkMessage_is_wire_tuple :
    (∀ m : StoreLinkMessage, isWireTuple (encodeMessage m) = true ∧
      decodeMessage (encodeMessage m) = some m) ∧
    (∀ l : List WireElem, isWireTuple l = true →
      ∃ m : StoreLinkMessage, encodeMessage m = l) ∧
    (∀ (link : StoreLink) (m : StoreLinkMessage) (outbox : List StoreLinkMessage),
      link.publish m outbox = outbox ++ [m]) := by
  refine ⟨fun m => ⟨encodeMessage_isWireTuple m, ?_⟩, isWireTuple_exists_encode,
    fun _ _ _ => rfl⟩
  show decodeMessage (.ident m.1 :: m.2.map .param) = some m
  simp [decodeMessage, decodeParams_map_param]

/-- Witness for C8 at a concrete wire tuple. -/
theorem storeLinkMessage_is_wire_tuple_witness :
    isWireTuple [WireElem.ident (Sum.inl "add"), WireElem.param (.num 2)] = true ∧
    ∃ m : StoreLinkMessage,
      encodeMessage m = [WireElem.ident (Sum.inl "add"), WireElem.param (.num 2)] :=
  ⟨rfl, storeLinkMessage_is_wire_tuple.2.1 _ rfl⟩

/-- C7: the reserved identifier `RootStoreDefaultLinkId` is the number
`Number.MIN_SAFE_INTEGER`, i.e. `-(2^53 - 1) = -9007199254740991`. -/
theorem rootStoreDefaultLinkId_eq_minSafeInteger :
    RootStoreDefaultLinkId = Sum.inr minSafeInteger ∧
      minSafeInteger = -9007199254740991 :=
  ⟨rfl, by norm_num [minSafeInteger]⟩

/-- C5: each invocation of the ConsistentStore and RequestStore subscriber
handlers calls `accept` exactly once and `deny` never — for every state of
the ConsistentStore and every behaviour of the external `applyStateAt`
collaborator — so each per-attempt run ends in the terminal `accepted`
state, and no attempt ends with both or with neither outcome. -/
theorem subscriber_accepts_exactly_once (f : ApplyStateAt) (σ : ConsistentState) :
    ((consistentSubscriberCalls f σ).countP SubscriberCall.isAccept = 1 ∧
      (consistentSubscriberCalls f σ).countP SubscriberCall.isDeny = 0 ∧
      runAttempt (consistentSubscriberCalls f σ) = .accepted) ∧
    (requestSubscriberCalls.countP SubscriberCall.isAccept = 1 ∧
      requestSubscriberCalls.countP SubscriberCall.isDeny = 0 ∧
      runAttempt requestSubscriberCalls = .accepted) :=
  ⟨⟨rfl, rfl, rfl⟩, ⟨rfl, rfl, rfl⟩⟩

/-- C6: invoking `changeTime` locally on a ConsistentStore whose `onServer`
flag is set raises the error `"should not warp time on the server"` to the
caller for every argument value; the failure is the handler's own outcome,
uncaught by the protocol layer (`invokeLocal`). -/
theorem changeTime_local_throws_on_server (σ : ConsistentState) (b : JSNumber)
    (h : σ.onServer = true) :
    invokeLocal (changeTimeHandler σ) b =
      Except.error "should not warp time on the server" := by
  simp [invokeLocal, changeTimeHandler, h]

/-- Witness for C6 at a concrete server-side store state and argument. -/
theorem changeTime_local_throws_on_server_witness :
    (⟨true, 0, none, none, []⟩ : ConsistentState).onServer = true ∧
    invokeLocal (changeTimeHandler ⟨true, 0, none, none, []⟩) 42 =
      Except.error "should not warp time on the server" :=
  ⟨rfl, changeTime_local_throws_on_server ⟨true, 0, none, none, []⟩ 42 rfl⟩

/-- C4: the `RequestStore.add` handler invoked locally (`origin` absent)
returns exactly the result of publishing the request to `mainLink`, for
every pair of arguments and every `Math.random()` draw; only when `origin`
is a remote link does it answer locally, and then with either `NEVER` or
`of(v1 + v2)`. -/
theorem add_local_delegates_to_mainLink (mainLink l : StoreLink)
    (v1 v2 rand : JSNumber) :
    (addCall mainLink none v1 v2 rand).1 = .delegated mainLink v1 v2 ∧
    ((addCall mainLink (some l) v1 v2 rand).1 = .producer .never ∨
      (addCall mainLink (some l) v1 v2 rand).1 = .producer (.of (v1 + v2))) := by
  refine ⟨rfl, ?_⟩
  by_cases h : rand > 0.5 <;> simp [addCall, h]

/-- C2: a remote invocation of the spec's Request handler
`add(origin, a, b) => of(a + b)` via an inbound message `["add", 2, 3]` from
link `l` produces exactly one outbound result message to `l` encoding `5`
followed by a completion marker, and zero messages to any other link,
whatever the store's current link set. -/
theorem remote_add_request_single_result (l lother : StoreLink)
    (ls : List StoreLink) (h : lother ≠ l) :
    dispatchSpecAdd l (Sum.inl "add", [JsonValue.num 2, JsonValue.num 3]) =
      some [(AddressTarget.one l, ResultMsg.result (.num 5)),
        (AddressTarget.one l, ResultMsg.completionMarker)] ∧
    ∀ p ∈ (dispatchSpecAdd l (Sum.inl "add", [JsonValue.num 2, JsonValue.num 3])).getD [],
      p.1.deliversTo lother ls = false := by
  have hd : dispatchSpecAdd l (Sum.inl "add", [JsonValue.num 2, JsonValue.num 3]) =
      some [(AddressTarget.one l, ResultMsg.result (.num 5)),
        (AddressTarget.one l, ResultMsg.completionMarker)] := by
    have h23 : (2 : JSNumber) + 3 = 5 := by norm_num
    simp [dispatchSpecAdd, remoteRequestDispatch, specAddHandler, Producer.of, h23]
  refine ⟨hd, ?_⟩
  rw [hd]
  intro p hp
  simp only [Option.getD_some, List.mem_cons, List.not_mem_nil, or_false] at hp
  rcases hp with rfl | rfl <;> simp [AddressTarget.deliversTo, h]

/-- Witness for C2 at two concrete distinct links and the empty link set. -/
theorem remote_add_request_single_result_witness :
    (⟨Sum.inl "other"⟩ : StoreLink) ≠ ⟨Sum.inl "origin"⟩ ∧
    (dispatchSpecAdd ⟨Sum.inl "origin"⟩ (Sum.inl "add", [JsonValue.num 2, JsonValue.num 3]) =
      some [(AddressTarget.one ⟨Sum.inl "origin"⟩, ResultMsg.result (.num 5)),
        (AddressTarget.one ⟨Sum.inl "origin"⟩, ResultMsg.completionMarker)] ∧
    ∀ p ∈ (dispatchSpecAdd ⟨Sum.inl "origin"⟩
        (Sum.inl "add", [JsonValue.num 2, JsonValue.num 3])).getD [],
      p.1.deliversTo ⟨Sum.inl "other"⟩ [] = false) :=
  ⟨by decide,
    remote_add_request_single_result ⟨Sum.inl "origin"⟩ ⟨Sum.inl "other"⟩ [] (by decide)⟩

/-- C3: the `invert` handler forwards per its origin: invoked locally it
publishes exactly one `invert` message with target `{to:"all"}`; invoked
remotely from link `l`, every message it publishes (one, or none when the
arguments are missing) has target `{to:"all-except-one", except: l}`, and
none of them is delivered to `l` under any current link set. -/
theorem invert_publish_targets (σ : ConsistentState) (stArg idArg : Option JSNumber)
    (randId : JSNumber) (l : StoreLink) (ls : List StoreLink) :
    (invert σ none stArg idArg randId).2 =
      [(.tagged .all, (Sum.inl "invert", [.num σ.clockTime, .num randId]))] ∧
    ((invert σ (some l) stArg idArg randId).2).all
      (fun p => decide (p.1 = .tagged (.allExceptOne l))) = true ∧
    ((invert σ (some l) stArg idArg randId).2).all
      (fun p => !(p.1.deliversTo l ls)) = true := by
  refine ⟨rfl, ?_, ?_⟩ <;>
    rcases stArg with _ | st <;> rcases idArg with _ | id <;>
      simp [invert, invertFinish, PassedTarget.deliversTo, AddressTarget.deliversTo]

/-- C9: the `invert` handler invoked with a remote origin and a missing
`stateTime` or `id` returns immediately: the store state (clock, smoothing
reference, universe history) is unchanged and no message is published to any
link. -/
theorem invert_missing_args_noop (σ : ConsistentState) (l : StoreLink)
    (stArg idArg : Option JSNumber) (randId : JSNumber)
    (h : stArg = none ∨ idArg = none) :
    invert σ (some l) stArg idArg randId = (σ, []) := by
  rcases h with rfl | rfl
  · cases idArg <;> rfl
  · cases stArg <;> rfl

/-- Witness for C9 at a concrete store state and a missing `stateTime`. -/
theorem invert_missing_args_noop_witness :
    ((none : Option JSNumber) = none ∨ (some (1 : JSNumber)) = none) ∧
    invert ⟨true, 0, none, none, []⟩ (some ⟨Sum.inl "L"⟩) none (some 1) 0 =
      (⟨true, 0, none, none, []⟩, []) :=
  ⟨Or.inl rfl, invert_missing_args_noop _ _ _ _ _ (Or.inl rfl)⟩

/-- Helper: `mod1` (JS `% 1` on a nonnegative operand) is nonnegative. -/
theorem mod1_nonneg (a : JSNumber) : 0 ≤ mod1 a := Int.fract_nonneg a

/-- Helper: `mod1` is below one. -/
theorem mod1_lt_one (a : JSNumber) : mod1 a < 1 := Int.fract_lt_one a

/-- Helper: JavaScript `a % 1` on a finite nonnegative operand is the
fractional part. -/
theorem mod_one_num (q : ℚ) (h : 0 ≤ q) :
    (JSFloat.num q).mod (.num 1) = .num (mod1 q) := by
  simp [JSFloat.mod, mod1, h]

/-- Helper: the final clamp of `getCurrentValue` on a finite input equals
`abs % 1` or `1 - (abs % 1)`, for `abs` the input's absolute value. -/
theorem clampValue_num_cases (q : ℚ) :
    clampValue (.num q) = .num (mod1 |q|) ∨ clampValue (.num q) = .num (1 - mod1 |q|) := by
  have hm : (JSFloat.num q).abs.mod (.num 1) = .num (mod1 |q|) :=
    mod_one_num |q| (abs_nonneg q)
  unfold clampValue
  by_cases hb : ((JSFloat.num q).abs.floor.mod (.num 2)).strictEq (.num 1) = true
  · right
    rw [if_pos hb, hm]
    simp [JSFloat.sub, JSFloat.neg, JSFloat.add, sub_eq_add_neg]
  · left
    rw [if_neg hb, hm]

/-- Helper: the clamp sends NaN and both infinities to NaN (their absolute
value has no finite remainder). -/
theorem clampValue_special :
    clampValue .nan = .nan ∧ clampValue .posInf = .nan ∧ clampValue .negInf = .nan :=
  ⟨rfl, rfl, rfl⟩

/-- C10 (amended): for every store state, every behaviour of the external
state collaborator and both values of the `smoothed` flag, `getCurrentValue`
returns either NaN (when the pre-clamp display value is not finite, as the
`0/0` division of `applySmoothing` can make it) or a number in the closed
interval `[0, 1]`: on a finite display value `q` the result is `|q| % 1` (in
`[0,1)`) or `1 - (|q| % 1)` (in `(0,1]`). -/
theorem getCurrentValue_unit_interval_or_nan (f : ApplyStateAt) (σ : ConsistentState)
    (smoothed : Bool) :
    ((getCurrentValue f σ smoothed).1.inUnitInterval = true ∨
      (getCurrentValue f σ smoothed).1 = .nan) ∧
    (∀ q : ℚ, (displayValue f σ smoothed).1 = .num q →
      ((getCurrentValue f σ smoothed).1 = .num (mod1 |q|) ∧
        0 ≤ mod1 |q| ∧ mod1 |q| < 1) ∨
      ((getCurrentValue f σ smoothed).1 = .num (1 - mod1 |q|) ∧
        0 < 1 - mod1 |q| ∧ 1 - mod1 |q| ≤ 1)) := by
  have hr : (getCurrentValue f σ smoothed).1 = clampValue (displayValue f σ smoothed).1 := rfl
  constructor
  · rw [hr]
    cases hv : (displayValue f σ smoothed).1 with
    | num q =>
      left
      rcases clampValue_num_cases q with h | h <;> rw [h] <;>
        simp only [JSFloat.inUnitInterval, decide_eq_true_eq]
      · exact ⟨mod1_nonneg _, le_of_lt (mod1_lt_one _)⟩
      · constructor <;> linarith [mod1_nonneg |q|, mod1_lt_one |q|]
    | nan => exact .inr rfl
    | posInf => exact .inr rfl
    | negInf => exact .inr rfl
  · intro q hq
    rw [hr, hq]
    rcases clampValue_num_cases q with h | h
    · exact .inl ⟨h, mod1_nonneg _, mod1_lt_one _⟩
    · refine .inr ⟨h, ?_, ?_⟩
      · linarith [mod1_lt_one |q|]
      · linarith [mod1_nonneg |q|]

/-- Counterexample to C10: at a store state whose smoothing reference was
stamped at the current clock reading with its smoothed value equal to the
real value — reachable by two consecutive `getCurrentValue` calls at one
clock reading, e.g. outside a browser where the clock's now-callback is
`() => 0` — `applySmoothing` computes `(0.05 * 0) / 0 = NaN`, which
propagates, so `getCurrentValue` with smoothing on returns NaN, not a number
in `[0, 1]`. -/
theorem getCurrentValue_nan_at_equal_times :
    (getCurrentValue (fun _ _ => ⟨0, false⟩)
        ⟨false, 0, some ⟨0, 0.0001⟩, some 0, []⟩ true).1 = JSFloat.nan ∧
    (getCurrentValue (fun _ _ => ⟨0, false⟩)
        ⟨false, 0, some ⟨0, 0.0001⟩, some 0, []⟩ true).1.inUnitInterval = false := by
  constructor <;>
    norm_num [getCurrentValue, displayValue, applySmoothing, SmoothState.toF, limitAbs,
      clampValue, JSFloat.sub, JSFloat.add, JSFloat.neg, JSFloat.mul, JSFloat.div,
      JSFloat.min, JSFloat.max, JSFloat.abs, JSFloat.floor, JSFloat.mod,
      JSFloat.strictEq, JSFloat.inUnitInterval]

/-- Counterexample to C1: the `publishTo` call the `add` handler makes on a
local invocation (src/examples/stores/request.ts line 15) passes the bare
`mainLink`, not one of the three tagged variants. -/
theorem add_publishTo_target_untagged :
    ((addCall ⟨Sum.inl "main"⟩ none 2 3 0).2.all fun p => p.1.isTagged) = false := rfl

/-- C1 (amended): every `Action` `publishTo` call in the sources
(`informTime` and `invert`; `changeTime` performs none directly) passes one
of the three tagged variants, while the single `Request` `publishTo` call
(`RequestStore.add`, local path) passes the destination `StoreLink` itself,
untagged. -/
theorem publish_targets_tagged_for_actions (σ : ConsistentState)
    (mainLink l : StoreLink) (origin : Option StoreLink)
    (ctArg stArg idArg : Option JSNumber) (randId v1 v2 rand : JSNumber) :
    ((informTimeCall σ mainLink origin ctArg).all fun p => p.1.isTagged) = true ∧
    (((invert σ origin stArg idArg randId).2).all fun p => p.1.isTagged) = true ∧
    (addCall mainLink none v1 v2 rand).2 =
      [(.bare mainLink, (Sum.inl "add", [.num v1, .num v2]))] ∧
    (addCall mainLink (some l) v1 v2 rand).2 = [] := by
  refine ⟨?_, ?_, rfl, rfl⟩
  · rcases origin with _ | o
    · rfl
    · rcases ctArg with _ | c
      · rfl
      · by_cases h : σ.onServer <;> simp [informTimeCall, h, PassedTarget.isTagged]
  · rcases origin with _ | o
    · rfl
    · rcases stArg with _ | st <;> rcases idArg with _ | id <;>
        simp [invert, invertFinish, PassedTarget.isTagged]

end CoShare
